import Mathlib

set_option maxRecDepth 40000
set_option exponentiation.threshold 2000

/-!
Shallow embedding of the LLM-functioncall-Qdrant repository core
(`src/main.py` and `embed.py`): JSON-like runtime values, the Qdrant
scroll pagination engine, the month aggregators, the search
compatibility shim, the intent classifier's date/keyword parsing, and
the ingestion payload normalizer.  Machine floats are modelled as exact
rationals (every value reached by the claims is exactly representable);
Python `datetime` instants are modelled as seconds since
0001-01-01T00:00:00Z in the proleptic Gregorian calendar, which is the
arithmetic `datetime` itself performs.
-/

/-- Exact rational with explicit positive denominator (kept
unnormalized so the kernel can evaluate it): the model of Python float
values.  Every float reached by the claims (decimal literals, their
sums, 0, 1) is exactly representable; IEEE rounding of non-representable
decimals is the one abstraction taken. -/
structure PyNum where
  num : Int
  den : Nat
deriving DecidableEq

instance (n : Nat) : OfNat PyNum n := ⟨⟨(n : Int), 1⟩⟩

/-- Exact addition of the fraction model (Python float `+`). -/
def PyNum.add (a b : PyNum) : PyNum := ⟨a.num * b.den + b.num * a.den, a.den * b.den⟩

/-- Negation. -/
def PyNum.neg (a : PyNum) : PyNum := ⟨-a.num, a.den⟩

/-- Truncation toward zero, Python `int(float)`. -/
def PyNum.trunc (a : PyNum) : Int := a.num.tdiv a.den

/-- `mant * 10 ^ exp` as a fraction (mantissa is a natural number). -/
def PyNum.scale (mant : Nat) (exp : Int) : PyNum :=
  if 0 ≤ exp then ⟨(mant : Int) * 10 ^ exp.toNat, 1⟩ else ⟨(mant : Int), 10 ^ (-exp).toNat⟩

/-- `float()` overflow bound: magnitudes reaching `2^1024` become `inf`
for string inputs and `OverflowError` for int inputs (the exact
round-to-even threshold differs by less than one part in `2^53`; no
modelled claim sits in that gap). -/
def floatMaxNum : Nat := 2 ^ 1024

/-- Whether the fraction's magnitude stays below the overflow bound. -/
def PyNum.isSmall (a : PyNum) : Bool := a.num.natAbs < floatMaxNum * a.den

/-- JSON-like value as manipulated by the Python code.  `null` doubles as
Python `None` (which is what `json.loads` produces for JSON null and what
`dict.get` returns for a missing key).  `pydate` models a
`datetime.date` object as produced by the Postgres driver (it never
occurs in JSON payloads). -/
inductive JVal where
  | null : JVal
  | bool (b : Bool) : JVal
  | int (n : Int) : JVal
  | float (q : PyNum) : JVal
  | str (s : String) : JVal
  | arr (xs : List JVal) : JVal
  | obj (kvs : List (String × JVal)) : JVal
  | pydate (y m d : Nat) : JVal

namespace JVal

/-- Python truthiness (`bool(v)`): `None`, `False`, `0`, `0.0`, `""`,
`[]`, `{}` are falsy, everything else truthy. -/
def truthy : JVal → Bool
  | .null => false
  | .bool b => b
  | .int n => n != 0
  | .float q => q.num != 0
  | .str s => s != ""
  | .arr xs => !xs.isEmpty
  | .obj kvs => !kvs.isEmpty
  | .pydate _ _ _ => true

/-- Association-list lookup modelling Python `dict.__getitem__` /
key presence (first binding wins; real dicts have unique keys). -/
def lookupKey : List (String × JVal) → String → Option JVal
  | [], _ => none
  | (k, v) :: rest, key => if k = key then some v else lookupKey rest key

/-- `d.get(key)`: `None` when the receiver is not a dict is never reached
in the modelled code paths (callers guard with `isinstance`), so missing
key and non-dict both give `null` here. -/
def get : JVal → String → JVal
  | .obj kvs, key => (lookupKey kvs key).getD .null
  | _, _ => .null

/-- `d.get(key, default)` with an explicit default. -/
def getD : JVal → String → JVal → JVal
  | .obj kvs, key, dflt => (lookupKey kvs key).getD dflt
  | _, _, dflt => dflt

/-- `isinstance(v, dict)`. -/
def isObj : JVal → Bool
  | .obj _ => true
  | _ => false

/-- key presence test used by `"points" in result`. -/
def hasKey : JVal → String → Bool
  | .obj kvs, key => (lookupKey kvs key).isSome
  | _, _ => false

/-- Python `a or b`: `a` if truthy, else `b`. -/
def pyOr (a b : JVal) : JVal := if a.truthy then a else b

end JVal

/-- Outcome of Python `float(v)` followed by `math.isfinite`:
a finite value, a non-finite value (`inf`/`nan`, no exception), or an
exception (`ValueError`/`TypeError`/`OverflowError`). -/
inductive PyFloat where
  | fin (q : PyNum) : PyFloat
  | nonfin : PyFloat
  | err : PyFloat
deriving DecidableEq

/-- ASCII whitespace stripped by `float(str)` (Python also strips some
unicode spaces; the modelled inputs are ASCII). -/
def pyWs (c : Char) : Bool :=
  c = ' ' || c = '\t' || c = '\n' || c = '\x0d' || c = '\x0c' || c = '\x0b'

/-- A run of decimal digits possibly with single underscores between
digits (Python numeric-literal grammar): returns accumulated value,
number of digits consumed, and the unconsumed rest (the caller rejects
a run of zero digits or a non-empty rest). -/
def digitRun : List Char → Nat → Nat → (Nat × Nat × List Char)
  | [], acc, len => (acc, len, [])
  | c :: rest, acc, len =>
    if c.isDigit then digitRun rest (acc * 10 + (c.toNat - 48)) (len + 1)
    else if c = '_' && len != 0 then
      match rest with
      | d :: rest' =>
        if d.isDigit then digitRun rest' (acc * 10 + (d.toNat - 48)) (len + 1)
        else (acc, len, c :: rest)
      | [] => (acc, len, c :: rest)
    else (acc, len, c :: rest)

/-- Case-insensitive match of an ASCII keyword. -/
def charsLowerEq : List Char → List Char → Bool
  | [], [] => true
  | c :: cs, d :: ds => (c.toLower = d) && charsLowerEq cs ds
  | _, _ => false

/-- Parse the body of a Python float literal after the optional sign:
`digits [. digits] [e [sign] digits]` with at least one mantissa digit,
or `inf`/`infinity`/`nan`. -/
def parseFloatBody (l : List Char) : PyFloat :=
  if charsLowerEq l "inf".toList || charsLowerEq l "infinity".toList
      || charsLowerEq l "nan".toList then .nonfin
  else
    let (ip, iplen, rest1) := digitRun l 0 0
    let (fp, fplen, rest2) :=
      match rest1 with
      | '.' :: r => digitRun r 0 0
      | _ => (0, 0, rest1)
    if iplen + fplen = 0 then .err
    else
      let mant : Nat := ip * 10 ^ fplen + fp
      let finish : Int → List Char → PyFloat := fun e rest =>
        if rest.isEmpty then
          let q := PyNum.scale mant (e - fplen)
          if q.isSmall then .fin q else .nonfin
        else .err
      match rest2 with
      | 'e' :: r | 'E' :: r =>
        let sgn : Int := match r with | '-' :: _ => -1 | _ => 1
        let r' : List Char := match r with | '+' :: t => t | '-' :: t => t | _ => r
        let (ev, evlen, rest3) := digitRun r' 0 0
        if evlen = 0 then .err else finish (sgn * ev) rest3
      | _ => finish 0 rest2

/-- Python `float(s)` for a string: strip whitespace, optional sign,
then the literal body. -/
def pyFloatOfString (s : String) : PyFloat :=
  let l := (s.toList.dropWhile pyWs).reverse.dropWhile pyWs |>.reverse
  match l with
  | '+' :: r => parseFloatBody r
  | '-' :: r =>
    match parseFloatBody r with
    | .fin q => .fin q.neg
    | x => x
  | _ => parseFloatBody l

/-- Python `float(v)` on an arbitrary value. -/
def pyFloatOfVal : JVal → PyFloat
  | .bool b => .fin (if b then 1 else 0)
  | .int n => if n.natAbs < floatMaxNum then .fin ⟨n, 1⟩ else .err
  | .float q => .fin q
  | .str s => pyFloatOfString s
  | _ => .err

/-! ## Proleptic Gregorian calendar (the arithmetic behind `datetime`) -/

/-- Gregorian leap-year rule, as implemented by Python `datetime`. -/
def isLeap (y : Nat) : Bool := y % 4 == 0 && (y % 100 != 0 || y % 400 == 0)

/-- Length of month `m` (1-12) of year `y` in days. -/
def daysInMonth (y m : Nat) : Nat :=
  match m with
  | 1 => 31 | 2 => if isLeap y then 29 else 28 | 3 => 31 | 4 => 30
  | 5 => 31 | 6 => 30 | 7 => 31 | 8 => 31 | 9 => 30 | 10 => 31
  | 11 => 30 | 12 => 31 | _ => 0

/-- Days in the months of year `y` strictly before month `m`. -/
def daysBeforeMonth (y m : Nat) : Nat :=
  let L : Nat := if isLeap y then 1 else 0
  match m with
  | 1 => 0 | 2 => 31 | 3 => 59 + L | 4 => 90 + L | 5 => 120 + L
  | 6 => 151 + L | 7 => 181 + L | 8 => 212 + L | 9 => 243 + L
  | 10 => 273 + L | 11 => 304 + L | 12 => 334 + L | _ => 0

def daysInYear (y : Nat) : Nat := if isLeap y then 366 else 365

/-- Days in the years 1 .. y-1 (day 0 is 0001-01-01): CPython's
`_days_before_year` closed form. -/
def daysBeforeYear (y : Nat) : Nat :=
  365 * (y - 1) + (y - 1) / 4 - (y - 1) / 100 + (y - 1) / 400

/-- Day index (from 0001-01-01 = 0) of the first day of month `m`, year `y`. -/
def monthStartDay (y m : Nat) : Nat := daysBeforeYear y + daysBeforeMonth y m

/-- Seconds since 0001-01-01T00:00:00Z of the first instant of month `m`
of year `y` — the value of `datetime(y, m, 1, tzinfo=utc)`. -/
def monthStartSec (y m : Nat) : Nat := 86400 * monthStartDay y m

/-- Recover (year, day-of-year) from a day index: scan years upward
from a lower-bound estimate.  The estimate `n / 366 + 1` never
overshoots and lags by at most a few dozen years over `datetime`'s
range, so the fuel of 64 always suffices. -/
def yearScan : Nat → Nat → Nat → (Nat × Nat)
  | 0, y, d => (y, d)
  | fuel + 1, y, d => if d < daysInYear y then (y, d) else yearScan fuel (y + 1) (d - daysInYear y)

/-- Recover (month, day-of-month) from a 0-based day-of-year. -/
def monthScan : Nat → Nat → Nat → Nat → (Nat × Nat)
  | 0, _, m, d => (m, d + 1)
  | fuel + 1, y, m, d =>
    if d < daysInMonth y m then (m, d + 1) else monthScan fuel y (m + 1) (d - daysInMonth y m)

/-- Day index to civil (year, month, day). -/
def civilFromDays (n : Nat) : Nat × Nat × Nat :=
  let y0 := n / 366 + 1
  let (y, doy) := yearScan 64 y0 (n - daysBeforeYear y0)
  let (m, d) := monthScan 12 y 1 doy
  (y, m, d)

/-- Zero-padded decimal rendering (`%02d`). -/
def pad2 (n : Nat) : String := if n < 10 then "0" ++ toString n else toString n

/-- Zero-padded decimal rendering (`%04d`, the `%Y` of `strftime`). -/
def pad4 (n : Nat) : String :=
  if n < 10 then "000" ++ toString n
  else if n < 100 then "00" ++ toString n
  else if n < 1000 then "0" ++ toString n
  else toString n

/-- `YYYY-MM-DDTHH:MM:SSZ` rendering of a civil date-time: both
`dt.isoformat().replace("+00:00", "Z")` on a whole-second UTC datetime
and `dt.strftime("%Y-%m-%dT%H:%M:%SZ")` produce this text. -/
def fmtCivil (y m d hh mm ss : Nat) : String :=
  pad4 y ++ "-" ++ pad2 m ++ "-" ++ pad2 d ++ "T" ++ pad2 hh ++ ":" ++ pad2 mm ++ ":" ++ pad2 ss ++ "Z"

/-- Render an instant (seconds since 0001-01-01T00:00:00Z). -/
def fmtSec (n : Nat) : String :=
  let (y, m, d) := civilFromDays (n / 86400)
  let r := n % 86400
  fmtCivil y m d (r / 3600) (r % 3600 / 60) (r % 60)

/-- The instants computed by `iso_month_range` (src/main.py:161-167):
first instant of the month, and first instant of the next month minus
one second (December rolls to January of year+1).  `none` models the
`datetime` constructor raising for a year outside 1..9999 (the caller
separately guards the month).  -/
def month_range_secs (year month : Int) : Option (Nat × Nat) :=
  if 1 ≤ year ∧ year ≤ 9999 ∧ 1 ≤ month ∧ month ≤ 12 then
    let y := year.toNat
    let m := month.toNat
    if m = 12 then
      if year + 1 ≤ 9999 then some (monthStartSec y m, monthStartSec (y + 1) 1 - 1) else none
    else some (monthStartSec y m, monthStartSec y (m + 1) - 1)
  else none

/-- `iso_month_range` (src/main.py:161-167): the two instants rendered
as `...Z` ISO strings. -/
def iso_month_range (year month : Int) : Option (String × String) :=
  (month_range_secs year month).map fun (s, e) => (fmtSec s, fmtSec e)

/-! ## Scroll pagination engine (src/main.py:169-201) -/

/-- `isinstance(v, list)`. -/
def JVal.isArr : JVal → Bool
  | .arr _ => true
  | _ => false

/-- Python iteration `for p in points`: lists iterate their elements,
strings iterate their one-character substrings, dicts iterate their
keys; iterating any other value raises `TypeError`. -/
def iterVals : JVal → Option (List JVal)
  | .arr xs => some xs
  | .str s => some (s.toList.map fun c => .str (String.mk [c]))
  | .obj kvs => some (kvs.map fun kv => .str kv.1)
  | _ => none

/-- `p.get("payload", {}) if isinstance(p, dict) else {}` (src/main.py:194). -/
def payloadOf (p : JVal) : JVal :=
  if p.isObj then p.getD "payload" (.obj []) else .obj []

/-- The `points` selection of src/main.py:180-190 (the final
`isinstance(resp, list)` arm is unreachable: a non-dict `resp` already
raised at `resp.get("result")`). -/
def pointsField (resp : JVal) : JVal :=
  let result := resp.get "result"
  if result.isObj && result.hasKey "points" then result.get "points"
  else if result.isArr then result
  else if (resp.get "points").isArr then resp.get "points"
  else .arr []

/-- The next-cursor chain of src/main.py:195-198: a cascade of Python
`or` over six candidate locations. -/
def nextCursor (resp : JVal) : JVal :=
  let result := resp.get "result"
  let n1 :=
    if result.isObj then
      ((result.get "next_page").pyOr (result.get "next_page_offset")).pyOr (result.get "offset")
    else .null
  ((n1.pyOr (resp.get "next_page")).pyOr (resp.get "next_page_offset")).pyOr (resp.get "offset")

/-- One server answer to a scroll POST: a JSON body, or an HTTP error
status (on which `raise_for_status` raises `requests.HTTPError`). -/
inductive PageResp where
  | ok (body : JVal) : PageResp
  | httpFail : PageResp

/-- How a scroll run ended: normal termination (`break`), an HTTP error,
a Python-level exception while handling a response, or the provided
response list ran out while the engine still wanted another page
(a transport failure in reality). -/
inductive ScrollOut where
  | finished : ScrollOut
  | httpError : ScrollOut
  | pyError : ScrollOut
  | starved : ScrollOut
deriving DecidableEq

/-- Trace of one scroll run: every payload yielded in order, the
`offset` value carried by each POST in order, and how the run ended. -/
structure ScrollRun where
  pays : List JVal
  reqs : List (Option JVal)
  out : ScrollOut

/-- `scroll_query_with_filter` (src/main.py:169-201) against a fixed
sequence of server answers (answer `i` replies to POST `i`).  Checked in
order: empty (falsy) page → stop; yield one payload per point; falsy
next-cursor → stop; otherwise POST again with the cursor as `offset`. -/
def scroll_query_with_filter (resps : List PageResp) (offset : Option JVal) : ScrollRun :=
  match resps with
  | [] => ⟨[], [offset], .starved⟩
  | .httpFail :: _ => ⟨[], [offset], .httpError⟩
  | .ok resp :: rest =>
    if !resp.isObj then ⟨[], [offset], .pyError⟩
    else
      let pointsV := pointsField resp
      if !pointsV.truthy then ⟨[], [offset], .finished⟩
      else
        match iterVals pointsV with
        | none => ⟨[], [offset], .pyError⟩
        | some pts =>
          let pays := pts.map payloadOf
          let cur := nextCursor resp
          if !cur.truthy then ⟨pays, [offset], .finished⟩
          else
            let r := scroll_query_with_filter rest (some cur)
            ⟨pays ++ r.pays, offset :: r.reqs, r.out⟩

/-! ## Month aggregators (src/main.py:203-285) -/

/-- `v.replace(",", "")`: drop every comma. -/
def stripCommas (s : String) : String := ⟨s.toList.filter (fun c => c ≠ ',')⟩

/-- The value-selection `or` chain over candidate field names
(`payload.get("sales") or payload.get("sales_amount")`, and the
three-way volume analogue). -/
def selectChain (p : JVal) : List String → JVal
  | [] => .null
  | [k] => p.get k
  | k :: rest => (p.get k).pyOr (selectChain p rest)

/-- Running totals of one aggregation. -/
structure AggState where
  total : PyNum
  count : Nat
  bad_rows : Nat

/-- `if isinstance(v, str): v = v.replace(",", "")` — comma stripping
applied only to string values. -/
def stripIfStr : JVal → JVal
  | .str s => .str (stripCommas s)
  | w => w

/-- The loop body of src/main.py:221-235 applied to the selected value:
a `None` selection (`if sales_val is None`) increments `bad_rows`;
otherwise strip commas from strings, parse as float, and accumulate on
a finite result or increment `bad_rows` on a parse failure or a
non-finite value. -/
def aggUpdate (st : AggState) : JVal → AggState
  | .null => { st with bad_rows := st.bad_rows + 1 }
  | v =>
    match pyFloatOfVal (stripIfStr v) with
    | .fin q => { st with total := st.total.add q, count := st.count + 1 }
    | _ => { st with bad_rows := st.bad_rows + 1 }

/-- Per-payload step of the aggregation loop (src/main.py:220-235):
`none` models the uncaught `AttributeError` when a yielded payload is
not a dict; otherwise run the candidate selection and the loop body. -/
def aggStep (cands : List String) (st : AggState) (p : JVal) : Option AggState :=
  if !p.isObj then none
  else some (aggUpdate st (selectChain p cands))

/-- The whole aggregation loop over the yielded payloads. -/
def aggPayloads (cands : List String) (pays : List JVal) : Option AggState :=
  pays.foldlM (aggStep cands) ⟨0, 0, 0⟩

/-- Error taxonomy of the aggregation endpoints, with the HTTP status
each one carries. -/
inductive AggErr where
  | invalidMonth : AggErr
  | invalidYearMonth : AggErr
  | upstream : AggErr
  | internal : AggErr
deriving DecidableEq

def AggErr.status : AggErr → Nat
  | .invalidMonth => 400
  | .invalidYearMonth => 400
  | .upstream => 502
  | .internal => 500

/-- Result payload of a successful aggregation. -/
structure AggResult where
  year : Int
  month : Int
  records_aggregated : Nat
  records_skipped : Nat
  total : PyNum
deriving DecidableEq

/-- Common shape of `aggregate_sales` / `aggregate_volume`
(src/main.py:203-285).  Returns the endpoint outcome and the number of
scroll POSTs issued (0 when validation rejects the input; on the error
paths the count is the number of POSTs the full scroll would issue,
which no claim depends on). -/
def runAggregate (cands : List String) (year month : Int) (resps : List PageResp) :
    Except AggErr AggResult × Nat :=
  if ¬(1 ≤ month ∧ month ≤ 12) then (.error .invalidMonth, 0)
  else
    match iso_month_range year month with
    | none => (.error .invalidYearMonth, 0)
    | some _ =>
      let run := scroll_query_with_filter resps none
      match run.out with
      | .finished =>
        match aggPayloads cands run.pays with
        | some st => (.ok ⟨year, month, st.count, st.bad_rows, st.total⟩, run.reqs.length)
        | none => (.error .internal, run.reqs.length)
      | .httpError => (.error .upstream, run.reqs.length)
      | _ => (.error .internal, run.reqs.length)

/-- `aggregate_sales` (src/main.py:203-243). -/
def aggregate_sales (year month : Int) (resps : List PageResp) : Except AggErr AggResult × Nat :=
  runAggregate ["sales", "sales_amount"] year month resps

/-- `aggregate_volume` (src/main.py:245-285). -/
def aggregate_volume (year month : Int) (resps : List PageResp) : Except AggErr AggResult × Nat :=
  runAggregate ["sales_vol", "quantity", "sales_volume"] year month resps

/-! ## Search compatibility shim (src/main.py:74-126) -/

/-- One attempted POST to a search endpoint: the request raised
(timeout, connection error), or an HTTP response arrived with a status
code and a body (`none` models `r.json()` raising on a non-JSON body). -/
inductive Attempt where
  | exc : Attempt
  | resp (code : Nat) (body : Option JVal) : Attempt

/-- The uniform hit shape `{"id": ..., "score": ..., "payload": ...}`. -/
structure SearchHit where
  id : JVal
  score : JVal
  payload : JVal

/-- Normalization of one point (src/main.py:90-94 and 116-120):
non-dict points get `None` id/score and an empty payload; a falsy
payload is replaced by `{}` (`payload or {}`). -/
def mkHit (p : JVal) : SearchHit :=
  if p.isObj then ⟨p.get "id", p.get "score", (p.get "payload").pyOr (.obj [])⟩
  else ⟨.null, .null, .obj []⟩

/-- Envelope detection plus hit normalization shared by both endpoints
(src/main.py:81-94): nested `points` list preferred, else a list
`result`, else `resp.get("result", [])`.  `none` models an exception
(non-dict body, or iterating a non-iterable `points`). -/
def searchPointsVal (body : JVal) : JVal :=
  let result := body.get "result"
  if result.isObj && result.hasKey "points" then result.get "points"
  else if result.isArr then result
  else body.getD "result" (.arr [])

def parseHits (body : JVal) : Option (List SearchHit) :=
  if !body.isObj then none
  else (iterVals (searchPointsVal body)).map (List.map mkHit)

/-- Outcome of the first (`/points/search`) attempt: hits only on an
exact 200 status with a parseable body; anything else falls through. -/
def attempt1Hits : Attempt → Option (List SearchHit)
  | .exc => none
  | .resp code body => if code = 200 then body.bind parseHits else none

/-- Outcome of the second (`/points/query`) attempt:
`raise_for_status` tolerates any status below 400. -/
def attempt2Hits : Attempt → Option (List SearchHit)
  | .exc => none
  | .resp code body => if code < 400 then body.bind parseHits else none

/-- `http_search_collection` (src/main.py:74-126): legacy endpoint
first, modern endpoint on any failure, `RuntimeError` when both fail.
Also returns how many endpoint attempts were made. -/
def http_search_collection (a1 a2 : Attempt) : Except Unit (List SearchHit) × Nat :=
  match attempt1Hits a1 with
  | some hits => (.ok hits, 1)
  | none =>
    match attempt2Hits a2 with
    | some hits => (.ok hits, 2)
    | none => (.error (), 2)

/-! ## Intent classifier (src/main.py:291-337, 343-394) -/

/-- Python regex `\w` for the ASCII texts in scope. -/
def wordChar (c : Char) : Bool := c.isAlphanum || c = '_'

/-- Python regex `[\s,]`. -/
def sepChar (c : Char) : Bool := pyWs c || c = ','

/-- Digit value of an ASCII digit. -/
def dv (c : Char) : Nat := c.toNat - 48

/-- Match of pattern 1 anchored at the head of the text: `20`, two
digits, a separator (dash, slash or dot), then a greedy 1-2 digit month
group (two digits when available). -/
def m1at : List Char → Option (Nat × Nat)
  | '2' :: '0' :: a :: b :: s :: d1 :: d2 :: _ =>
    if a.isDigit && b.isDigit && (s = '-' || s = '/' || s = '.') && d1.isDigit then
      if d2.isDigit then some (2000 + 10 * dv a + dv b, 10 * dv d1 + dv d2)
      else some (2000 + 10 * dv a + dv b, dv d1)
    else none
  | ['2', '0', a, b, s, d1] =>
    if a.isDigit && b.isDigit && (s = '-' || s = '/' || s = '.') && d1.isDigit then
      some (2000 + 10 * dv a + dv b, dv d1)
    else none
  | _ => none

/-- `re.search` for the first pattern: leftmost anchored match wins. -/
def m1search : List Char → Option (Nat × Nat)
  | [] => none
  | c :: rest =>
    match m1at (c :: rest) with
    | some r => some r
    | none => m1search rest

/-- `MONTH_MAP` (src/main.py:291-296) in its Python insertion order,
which is the alternation order of the built regex. -/
def monthTable : List (String × Nat) :=
  [("january", 1), ("jan", 1), ("february", 2), ("feb", 2), ("march", 3), ("mar", 3),
   ("april", 4), ("apr", 4), ("may", 5), ("june", 6), ("jun", 6), ("july", 7), ("jul", 7),
   ("august", 8), ("aug", 8), ("september", 9), ("sep", 9), ("sept", 9),
   ("october", 10), ("oct", 10), ("november", 11), ("nov", 11), ("december", 12), ("dec", 12)]

/-- `\b` immediately after a word character: next char absent or non-word. -/
def boundaryAfter : List Char → Bool
  | [] => true
  | c :: _ => !wordChar c

/-- `[\s,]+(20\d{2})`: at least one separator, maximal munch (complete
here because `2` is not a separator), then the year group. -/
def yearAfterSeps : List Char → Option Nat
  | c :: rest =>
    if sepChar c then
      match rest.dropWhile sepChar with
      | '2' :: '0' :: a :: b :: _ =>
        if a.isDigit && b.isDigit then some (2000 + 10 * dv a + dv b) else none
      | _ => none
    else none
  | [] => none

/-- Alternation `(january|jan|...)` of pattern 2 anchored at the head,
in table order, with the regex backtracking to the next alternative when
the trailing `\b[\s,]+(20\d{2})` fails. -/
def m2alt (l : List Char) : List (String × Nat) → Option (Nat × Nat)
  | [] => none
  | (nm, mv) :: alts =>
    if nm.toList.isPrefixOf l then
      let rest := l.drop nm.length
      if boundaryAfter rest then
        match yearAfterSeps rest with
        | some y => some (y, mv)
        | none => m2alt l alts
      else m2alt l alts
    else m2alt l alts

/-- `\b` before the month name at the current position: start of text or
previous char non-word. -/
def prevBoundary : Option Char → Bool
  | none => true
  | some p => !wordChar p

/-- `re.search` for pattern 2 `\b(months)\b[\s,]+(20\d{2})`, carrying
the previous character for the leading `\b`. -/
def m2search (prev : Option Char) : List Char → Option (Nat × Nat)
  | [] => none
  | c :: rest =>
    match (if prevBoundary prev then m2alt (c :: rest) monthTable else none) with
    | some r => some r
    | none => m2search (some c) rest

/-- Alternation of pattern 3's month group with its trailing `\b`. -/
def m3alt (l : List Char) : List (String × Nat) → Option Nat
  | [] => none
  | (nm, mv) :: alts =>
    if nm.toList.isPrefixOf l && boundaryAfter (l.drop nm.length) then some mv
    else m3alt l alts

/-- Match of `(20\d{2})[\s,]+\b(months)\b` anchored at the head (the
inner `\b` holds automatically: the char before the name is a
separator). -/
def m3at : List Char → Option (Nat × Nat)
  | '2' :: '0' :: a :: b :: c :: rest =>
    if a.isDigit && b.isDigit && sepChar c then
      match m3alt (rest.dropWhile sepChar) monthTable with
      | some mv => some (2000 + 10 * dv a + dv b, mv)
      | none => none
    else none
  | _ => none

/-- `re.search` for pattern 3. -/
def m3search : List Char → Option (Nat × Nat)
  | [] => none
  | c :: rest =>
    match m3at (c :: rest) with
    | some r => some r
    | none => m3search rest

/-- The two keyword searches tried when pattern 1 does not settle the
result: pattern 2, else pattern 3. -/
def m23 (t : List Char) : Option (Nat × Nat) :=
  match m2search none t with
  | some r => some r
  | none => m3search t

/-- `parse_year_month_from_text` (src/main.py:298-321) on an
already-lowercased character list: pattern 1's leftmost match is
accepted only when its month is in 1..12, otherwise (or when pattern 1
has no match at all) patterns 2 then 3 are tried. -/
def parseYMChars (t : List Char) : Option (Nat × Nat) :=
  match m1search t with
  | some (y, m) => if 1 ≤ m ∧ m ≤ 12 then some (y, m) else m23 t
  | none => m23 t

/-- `parse_year_month_from_text` on the raw question (`text.lower()`;
ASCII lowering, the texts in scope are ASCII). -/
def parse_year_month_from_text (text : String) : Option (Nat × Nat) :=
  parseYMChars (text.toList.map Char.toLower)

/-- Substring scan underlying Python `needle in hay`. -/
def pyInChars (needle : List Char) : List Char → Bool
  | [] => needle.isEmpty
  | c :: rest => needle.isPrefixOf (c :: rest) || pyInChars needle rest

/-- Python substring test `needle in hay`. -/
def pyIn (needle hay : String) : Bool := pyInChars needle.toList hay.toList

def lowerStr (s : String) : String := ⟨s.toList.map Char.toLower⟩

/-- `is_revenue_aggregation` (src/main.py:323-329). -/
def is_revenue_aggregation (text : String) : Bool :=
  let t := lowerStr text
  ["total sales", "sum of sales", "aggregate sales", "revenue",
   "sales amount", "total revenue", "how much sales", "overall sales"].any fun k => pyIn k t

/-- `is_volume_aggregation` (src/main.py:331-337). -/
def is_volume_aggregation (text : String) : Bool :=
  let t := lowerStr text
  ["total units", "units sold", "sales volume", "quantity sold",
   "total quantity", "overall volume"].any fun k => pyIn k t

/-- The routing decision taken by the `/chat` endpoint. -/
inductive Intent where
  | revenueAgg (year month : Nat) : Intent
  | volumeAgg (year month : Nat) : Intent
  | retrieval : Intent
deriving DecidableEq

/-- The router of src/main.py:343-394: `is_revenue_aggregation(q) and
year and month` selects revenue aggregation, else the volume analogue,
else retrieval.  `year and month` is Python truthiness, hence the
`≠ 0` tests. -/
def chatIntent (question : String) : Intent :=
  match parse_year_month_from_text question with
  | some (y, m) =>
    if is_revenue_aggregation question && (y != 0) && (m != 0) then .revenueAgg y m
    else if is_volume_aggregation question && (y != 0) && (m != 0) then .volumeAgg y m
    else .retrieval
  | none => .retrieval

/-! ## Ingestion payload normalizer (embed.py:38-177) -/

/-- One schema property: `{"name": ..., "dataType": [...]}`. -/
structure PropDef where
  name : String
  dataType : List String

/-- One collection config: Qdrant class name plus properties. -/
structure SchemaCfg where
  className : String
  props : List PropDef

/-- `SCHEMAS` (embed.py:38-107). -/
def SCHEMAS : List (String × SchemaCfg) :=
  [("product_cost", ⟨"product_cost_staging",
     [⟨"month_year", ["date"]⟩, ⟨"sales_vol", ["int"]⟩, ⟨"sum_profit", ["number"]⟩,
      ⟨"cost_per_unit", ["string"]⟩, ⟨"rsp_per_unit", ["string"]⟩, ⟨"product_name", ["string"]⟩]⟩),
   ("transactions_main", ⟨"transactions_main_staging",
     [⟨"sub_category", ["string"]⟩, ⟨"city", ["string"]⟩, ⟨"order_id", ["string"]⟩,
      ⟨"sales", ["string"]⟩, ⟨"product_name", ["string"]⟩, ⟨"country", ["string"]⟩,
      ⟨"state", ["string"]⟩, ⟨"quantity", ["int"]⟩, ⟨"product_id", ["string"]⟩,
      ⟨"ship_date", ["date"]⟩, ⟨"discount", ["number"]⟩, ⟨"postal_code", ["string"]⟩,
      ⟨"ship_mode", ["string"]⟩, ⟨"customer_name", ["string"]⟩, ⟨"month_year", ["date"]⟩,
      ⟨"region", ["string"]⟩, ⟨"order_date", ["date"]⟩, ⟨"customer_id", ["string"]⟩,
      ⟨"segment", ["string"]⟩, ⟨"category", ["string"]⟩, ⟨"profit", ["number"]⟩,
      ⟨"row_id", ["int"]⟩]⟩),
   ("target_cost", ⟨"target_cost_staging",
     [⟨"target_cost", ["string"]⟩, ⟨"product_name", ["string"]⟩, ⟨"month_year", ["date"]⟩]⟩),
   ("sales_vol", ⟨"sales_vol_staging",
     [⟨"sales", ["string"]⟩, ⟨"product_name", ["string"]⟩, ⟨"sales_vol", ["int"]⟩,
      ⟨"month_year", ["date"]⟩]⟩),
   ("product_inventory_init", ⟨"product_inventory_init_staging",
     [⟨"product_name", ["string"]⟩, ⟨"inventory_stock_init", ["int"]⟩,
      ⟨"month_year", ["date"]⟩]⟩)]

/-- `build_type_map` (embed.py:110-115): class name to
field-name-to-type-tag map, keeping `dataType[0]`. -/
def build_type_map (schemas : List (String × SchemaCfg)) : List (String × List (String × String)) :=
  schemas.map fun cfg => (cfg.2.className, cfg.2.props.map fun p => (p.name, p.dataType.headD ""))

/-- `TYPE_MAP` (embed.py:117). -/
def TYPE_MAP : List (String × List (String × String)) := build_type_map SCHEMAS

/-- Python `int(float)`: truncation toward zero. -/
def pyTrunc (q : PyNum) : Int := q.trunc

/-- `excel_serial_to_date` (embed.py:119-123): 1899-12-30 plus the
serial in days, rendered `%Y-%m-%dT%H:%M:%SZ`.  `none` models the
`OverflowError` when the result leaves `datetime`'s year range 1..9999
(the caller's `except` turns it into the date fallback). -/
def excel_serial_to_date (serial : Int) : Option String :=
  let base : Int := (monthStartDay 1899 12 : Int) + 29
  let n : Int := base + serial
  if 0 ≤ n ∧ n < (daysBeforeYear 10000 : Int) then
    let (y, m, d) := civilFromDays n.toNat
    some (fmtCivil y m d 0 0 0)
  else none

/-- Python `str(v)`.  Exact for `None`, booleans, ints, strings and
dates; floats and containers are approximated (no modelled claim
depends on those renderings, they only have to fail a strict date
parse, which any of these renderings does). -/
def pyStr : JVal → String
  | .null => "None"
  | .bool b => if b then "True" else "False"
  | .int n => toString n
  | .float q => toString q.num ++ (if q.den = 1 then ".0" else "/" ++ toString q.den)
  | .str s => s
  | .arr _ => "[...]"
  | .obj _ => "\x7b...\x7d"
  | .pydate y m d => pad4 y ++ "-" ++ pad2 m ++ "-" ++ pad2 d

/-- Day-of-month group of `strptime`'s `%d`, with the end-of-input
check as continuation; regex alternatives in CPython's order
`3[01] | [12]\d | 0[1-9] | [1-9]`, backtracking on continuation
failure. -/
def parseDayEnd (y mo : Nat) (l : List Char) : Option (Nat × Nat × Nat) :=
  let finish : Nat → List Char → Option (Nat × Nat × Nat) := fun d rest =>
    if rest.isEmpty && 1 ≤ y && d ≤ daysInMonth y mo then some (y, mo, d) else none
  let alt2 : Option (Nat × Nat × Nat) :=
    match l with
    | c :: d :: r =>
      if (c = '1' || c = '2') && d.isDigit then finish (10 * dv c + dv d) r else none
    | _ => none
  let alt3 : Option (Nat × Nat × Nat) :=
    match l with
    | '0' :: c :: r => if c.isDigit && c ≠ '0' then finish (dv c) r else none
    | _ => none
  let alt4 : Option (Nat × Nat × Nat) :=
    match l with
    | c :: r => if c.isDigit && c ≠ '0' then finish (dv c) r else none
    | _ => none
  let alt1 : Option (Nat × Nat × Nat) :=
    match l with
    | '3' :: c :: r => if c = '0' || c = '1' then finish (30 + dv c) r else none
    | _ => none
  (((alt1.orElse fun _ => alt2).orElse fun _ => alt3).orElse fun _ => alt4)

/-- Month group of `%m` (`1[0-2] | 0[1-9] | [1-9]`), the literal dash,
then the day group. -/
def parseMonthRest (y : Nat) (l : List Char) : Option (Nat × Nat × Nat) :=
  let cont : Nat → List Char → Option (Nat × Nat × Nat) := fun mo rest =>
    match rest with
    | '-' :: r => parseDayEnd y mo r
    | _ => none
  let alt1 : Option (Nat × Nat × Nat) :=
    match l with
    | '1' :: c :: r => if c = '0' || c = '1' || c = '2' then cont (10 + dv c) r else none
    | _ => none
  let alt2 : Option (Nat × Nat × Nat) :=
    match l with
    | '0' :: c :: r => if c.isDigit && c ≠ '0' then cont (dv c) r else none
    | _ => none
  let alt3 : Option (Nat × Nat × Nat) :=
    match l with
    | c :: r => if c.isDigit && c ≠ '0' then cont (dv c) r else none
    | _ => none
  ((alt1.orElse fun _ => alt2).orElse fun _ => alt3)

/-- `datetime.strptime(s, "%Y-%m-%d")` (embed.py:147): `%Y` is exactly
four digits, the whole string must be consumed, and the resulting civil
date must be valid (year at least 1, day within the month) or
`ValueError` is raised (`none`). -/
def parseYMD (s : String) : Option (Nat × Nat × Nat) :=
  match s.toList with
  | y1 :: y2 :: y3 :: y4 :: '-' :: rest =>
    if y1.isDigit && y2.isDigit && y3.isDigit && y4.isDigit then
      parseMonthRest (1000 * dv y1 + 100 * dv y2 + 10 * dv y3 + dv y4) rest
    else none
  | _ => none

/-- The date fallback sentinel
`datetime(1970, 1, 1).strftime("%Y-%m-%dT%H:%M:%SZ")`. -/
def dateFallback : String := "1970-01-01T00:00:00Z"

/-- The date arm of embed.py:139-148 with its `except` fallback
(embed.py:172-173): numeric values (booleans included —
`isinstance(True, int)` holds in Python) go through the Excel serial
conversion, date objects are formatted at midnight, and anything else
is stringified and strictly parsed as `YYYY-MM-DD`; every failure
yields the 1970-01-01 sentinel. -/
def dateCoerce : JVal → String
  | .bool b => (excel_serial_to_date (if b then 1 else 0)).getD dateFallback
  | .int n => (excel_serial_to_date n).getD dateFallback
  | .float q => (excel_serial_to_date (pyTrunc q)).getD dateFallback
  | .pydate y m d => fmtCivil y m d 0 0 0
  | w =>
    match parseYMD (pyStr w) with
    | some (y, m, d) => fmtCivil y m d 0 0 0
    | none => dateFallback

/-- `int(float(v))` with the `except` fallback 0 (embed.py:151-152,
168-169). -/
def intCoerce (v : JVal) : Int :=
  match pyFloatOfVal v with
  | .fin q => pyTrunc q
  | _ => 0

/-- `float(v)` with the `except` fallback 0.0 (embed.py:154-156,
170-171). -/
def numberCoerce (v : JVal) : PyNum :=
  match pyFloatOfVal v with
  | .fin q => q
  | _ => 0

/-- One field coercion of `normalize_metadata` (embed.py:137-175): the
`try` body with its per-type `except` fallback; unknown type tags and
the `string` tag both stringify (`str()` never fails on these
values). -/
def normalizeField (expected : String) (v : JVal) : JVal :=
  if expected = "date" then .str (dateCoerce v)
  else if expected = "int" then .int (intCoerce v)
  else if expected = "number" then .float (numberCoerce v)
  else .str (pyStr v)

/-- `normalize_metadata` (embed.py:126-177): skip nulls and
schema-unknown fields, coerce the rest in input order. -/
def normalize_metadata (doc : List (String × JVal)) (class_name : String) : List (String × JVal) :=
  let type_for_class := (TYPE_MAP.lookup class_name).getD []
  doc.filterMap fun kv =>
    match kv.2, type_for_class.lookup kv.1 with
    | .null, _ => none
    | _, none => none
    | v, some expected => some (kv.1, normalizeField expected v)

/-! ## Claim theorems -/

/-- C5: when the scroll engine yields exactly three payloads whose
revenue-candidate values are the string "1,200", the string "bad", and
null, the revenue aggregator reports records_aggregated = 1,
records_skipped = 2 and total = 1200.0 (one scroll request is made). -/
theorem C5_three_record_page :
    aggregate_sales 2024 3
      [.ok (.obj [("result", .obj [("points", .arr
        [.obj [("payload", .obj [("sales", .str "1,200")])],
         .obj [("payload", .obj [("sales", .str "bad")])],
         .obj [("payload", .obj [("sales", .null)])]])])])]
      = (.ok ⟨2024, 3, 1, 2, 1200⟩, 1) := by
  rfl

/-- C7: a month outside 1..12 is rejected by both aggregation endpoints
with the 400 invalid-month error and zero scroll requests, whatever the
server would have answered; a month in range whose year makes the
month-range construction fail is likewise rejected with a 400 error and
zero requests. -/
theorem C7_invalid_month_before_network :
    (∀ (year month : Int) (resps : List PageResp), month < 1 ∨ 12 < month →
      aggregate_sales year month resps = (.error .invalidMonth, 0) ∧
      aggregate_volume year month resps = (.error .invalidMonth, 0)) ∧
    (∀ (year month : Int) (resps : List PageResp),
      1 ≤ month → month ≤ 12 → iso_month_range year month = none →
      aggregate_sales year month resps = (.error .invalidYearMonth, 0) ∧
      aggregate_volume year month resps = (.error .invalidYearMonth, 0)) ∧
    AggErr.invalidMonth.status = 400 ∧ AggErr.invalidYearMonth.status = 400 := by
  refine ⟨?_, ?_, rfl, rfl⟩
  · intro year month resps h
    have hm : ¬(1 ≤ month ∧ month ≤ 12) := by omega
    constructor <;> simp [aggregate_sales, aggregate_volume, runAggregate, hm]
  · intro year month resps h1 h2 hiso
    have hm : 1 ≤ month ∧ month ≤ 12 := ⟨h1, h2⟩
    have hsec : month_range_secs year month = none := by
      by_contra hne
      rcases Option.ne_none_iff_exists.mp hne with ⟨se, hse⟩
      simp [iso_month_range, ← hse] at hiso
    constructor <;> simp [aggregate_sales, aggregate_volume, runAggregate, hm, iso_month_range, hsec]

/-- Closed instance of C7: month 13 is rejected with status 400 and no
scroll request even when a server answer is available. -/
theorem C7_witness :
    aggregate_sales 2024 13 [.ok (.obj [])] = (.error .invalidMonth, 0) ∧
    AggErr.invalidMonth.status = 400 :=
  ⟨(C7_invalid_month_before_network.1 2024 13 [.ok (.obj [])] (by omega)).1,
   C7_invalid_month_before_network.2.2.1⟩

/-- The Boolean leap test as a proposition. -/
lemma daysInYear_eq (y : Nat) :
    daysInYear y = if y % 4 = 0 ∧ (y % 100 ≠ 0 ∨ y % 400 = 0) then 366 else 365 := by
  unfold daysInYear isLeap
  split_ifs with h1 h2 <;>
    simp only [Bool.and_eq_true, Bool.or_eq_true, beq_iff_eq, bne_iff_ne] at h1 <;>
    tauto

set_option maxHeartbeats 2000000 in
/-- One Gregorian year step of the closed-form day count. -/
lemma daysBeforeYear_succ (y : Nat) (hy : 1 ≤ y) :
    daysBeforeYear (y + 1) = daysBeforeYear y + daysInYear y := by
  rw [daysInYear_eq]
  show 365 * (y + 1 - 1) + (y + 1 - 1) / 4 - (y + 1 - 1) / 100 + (y + 1 - 1) / 400
      = 365 * (y - 1) + (y - 1) / 4 - (y - 1) / 100 + (y - 1) / 400 + _
  split_ifs with h
  · omega
  · push_neg at h
    rcases Decidable.em (y % 4 = 0) with h4 | h4
    · obtain ⟨h100, h400⟩ := h h4
      omega
    · omega

/-- One month step of the in-year day count. -/
lemma daysBeforeMonth_succ (y m : Nat) (h1 : 1 ≤ m) (h2 : m ≤ 11) :
    daysBeforeMonth y (m + 1) = daysBeforeMonth y m + daysInMonth y m := by
  interval_cases m <;>
    simp [daysBeforeMonth, daysInMonth] <;>
    cases hL : isLeap y <;> simp [hL]

/-- The first instant of the month after (y, m) is exactly the first
instant of (y, m) plus the month's length in seconds, December rolling
into January of the next year. -/
lemma monthStartSec_next (y m : Nat) (hy : 1 ≤ y) (h1 : 1 ≤ m) (h2 : m ≤ 12) :
    (if m = 12 then monthStartSec (y + 1) 1 else monthStartSec y (m + 1))
      = monthStartSec y m + 86400 * daysInMonth y m := by
  by_cases h12 : m = 12
  · subst h12
    simp only [if_pos, monthStartSec, monthStartDay, daysBeforeYear_succ y hy]
    have : daysBeforeMonth (y + 1) 1 = 0 := rfl
    rw [this]
    unfold daysInYear daysBeforeMonth daysInMonth
    cases hL : isLeap y <;> simp [hL] <;> ring
  · have hm : m ≤ 11 := by omega
    rw [if_neg h12]
    simp only [monthStartSec, monthStartDay, daysBeforeMonth_succ y m h1 hm]
    ring

/-- Every real month has at least 28 days. -/
lemma daysInMonth_ge (y m : Nat) (h1 : 1 ≤ m) (h2 : m ≤ 12) :
    28 ≤ daysInMonth y m := by
  interval_cases m <;> unfold daysInMonth <;> first
    | omega
    | (cases isLeap y <;> simp)

/-- C6: for every valid year and month in 1..12 the month range starts
at the first instant of the month and ends exactly one second before
the first instant of the next month (December rolling into January of
the following year), so the range spans exactly the month's length in
seconds; (2024, 12) ends one second before 2025-01-01T00:00:00Z and
(2024, 2) one second before 2024-03-01T00:00:00Z. -/
theorem C6_month_range :
    (∀ (year month : Int), 1 ≤ year → 1 ≤ month → month ≤ 12 →
      (if month = 12 then year + 1 else year) ≤ 9999 →
      ∃ s e, month_range_secs year month = some (s, e) ∧
        s = monthStartSec year.toNat month.toNat ∧
        e + 1 = (if month = 12 then monthStartSec (year.toNat + 1) 1
                 else monthStartSec year.toNat (month.toNat + 1)) ∧
        e + 1 = s + 86400 * daysInMonth year.toNat month.toNat) ∧
    iso_month_range 2024 12 = some ("2024-12-01T00:00:00Z", "2024-12-31T23:59:59Z") ∧
    iso_month_range 2024 2 = some ("2024-02-01T00:00:00Z", "2024-02-29T23:59:59Z") ∧
    fmtSec (monthStartSec 2025 1) = "2025-01-01T00:00:00Z" ∧
    fmtSec (monthStartSec 2024 3) = "2024-03-01T00:00:00Z" := by
  refine ⟨?_, rfl, rfl, rfl, rfl⟩
  intro year month h1 h2 h3 h4
  have hy9 : year ≤ 9999 := by split_ifs at h4 <;> omega
  have hyn : 1 ≤ year.toNat := by omega
  have hmn1 : 1 ≤ month.toNat := by omega
  have hmn12 : month.toNat ≤ 12 := by omega
  have hnext := monthStartSec_next year.toNat month.toNat hyn hmn1 hmn12
  have hdim := daysInMonth_ge year.toNat month.toNat hmn1 hmn12
  by_cases hm12 : month = 12
  · have hm12n : month.toNat = 12 := by omega
    have hy98 : year + 1 ≤ 9999 := by rw [if_pos hm12] at h4; exact h4
    rw [hm12n] at hnext hdim
    rw [if_pos rfl] at hnext
    refine ⟨monthStartSec year.toNat month.toNat,
            monthStartSec (year.toNat + 1) 1 - 1, ?_, rfl, ?_, ?_⟩
    · unfold month_range_secs
      rw [if_pos ⟨h1, hy9, h2, h3⟩, if_pos hm12n, if_pos hy98, hm12n]
    · rw [if_pos hm12]
      omega
    · rw [hm12n]
      omega
  · have hm12n : ¬ month.toNat = 12 := by omega
    refine ⟨monthStartSec year.toNat month.toNat,
            monthStartSec year.toNat (month.toNat + 1) - 1, ?_, rfl, ?_, ?_⟩
    · unfold month_range_secs
      rw [if_pos ⟨h1, hy9, h2, h3⟩, if_neg hm12n]
    · rw [if_neg hm12]
      rw [if_neg hm12n] at hnext
      omega
    · rw [if_neg hm12n] at hnext
      omega

/-- Closed instance of C6's universal part at (2024, 2): February 2024
spans exactly 29 days of seconds. -/
theorem C6_witness :
    ∃ s e, month_range_secs 2024 2 = some (s, e) ∧
      s = monthStartSec 2024 2 ∧
      e + 1 = monthStartSec 2024 3 ∧
      e + 1 = s + 86400 * daysInMonth 2024 2 := by
  have h := C6_month_range.1 2024 2 (by omega) (by omega) (by omega) (by omega)
  simpa using h

/-- Specification-level description of the candidate-selection `or`
chain: the first candidate value that is truthy; when no candidate's
value is truthy, the last candidate's lookup result (which is `None`
exactly when that field is absent or null). -/
def selectSpec (p : JVal) (ks : List String) : JVal :=
  match (ks.map p.get).find? JVal.truthy with
  | some v => v
  | none => ((ks.map p.get).getLast?).getD .null

/-- The nested Python `or` chain equals the first-truthy-or-last rule. -/
lemma selectChain_eq_selectSpec (p : JVal) (ks : List String) :
    selectChain p ks = selectSpec p ks := by
  induction ks with
  | nil => rfl
  | cons k rest ih =>
    cases rest with
    | nil =>
      show p.get k = selectSpec p [k]
      unfold selectSpec
      cases h : (p.get k).truthy <;> simp [List.find?_cons, h]
    | cons k' rest' =>
      show (p.get k).pyOr (selectChain p (k' :: rest')) = selectSpec p (k :: k' :: rest')
      rw [ih]
      unfold JVal.pyOr selectSpec
      cases h : (p.get k).truthy <;>
        simp only [List.map, List.find?_cons, h, cond_true, cond_false,
          Bool.false_eq_true, if_true, if_false, List.getLast?_cons_cons]



/-- A one-page scroll response carrying a single point with the given
payload fields. -/
def singlePayloadPage (kvs : List (String × JVal)) : JVal :=
  .obj [("result", .obj [("points", .arr [.obj [("payload", .obj kvs)]])])]

/-- C1 counterexample: a payload whose present `sales` field holds the
number 0 is skipped, not aggregated (it is passed over because 0 is
falsy); with a later candidate also present, the later one is selected
even though `sales` is present as a key. -/
theorem C1_counterexample :
    (JVal.obj [("sales", .int 0)]).hasKey "sales" = true ∧
    aggregate_sales 2024 3 [.ok (singlePayloadPage [("sales", .int 0)])]
      = (.ok ⟨2024, 3, 0, 1, 0⟩, 1) ∧
    (JVal.obj [("sales", .int 0), ("sales_amount", .int 7)]).hasKey "sales" = true ∧
    aggregate_sales 2024 3 [.ok (singlePayloadPage [("sales", .int 0), ("sales_amount", .int 7)])]
      = (.ok ⟨2024, 3, 1, 0, 7⟩, 1) := by
  exact ⟨rfl, rfl, rfl, rfl⟩

/-- On a non-`None` selection, the loop body is the parse-and-accumulate
match. -/
lemma aggUpdate_nonnull (st : AggState) (v : JVal) (hv : v ≠ .null) :
    aggUpdate st v = (match pyFloatOfVal (stripIfStr v) with
      | .fin q => { st with total := st.total.add q, count := st.count + 1 }
      | _ => { st with bad_rows := st.bad_rows + 1 }) := by
  cases v <;> first | exact absurd rfl hv | rfl

/-- The parse-and-accumulate match skips whenever the parse is not a
finite value. -/
lemma parseMatch_notfin (st : AggState) (pf : PyFloat) (hq : ∀ q, pf ≠ .fin q) :
    (match pf with
      | PyFloat.fin q => { st with total := st.total.add q, count := st.count + 1 }
      | _ => { st with bad_rows := st.bad_rows + 1 }) = { st with bad_rows := st.bad_rows + 1 } := by
  cases pf
  · exact absurd rfl (hq _)
  · rfl
  · rfl

/-- C1 amended: each aggregator selects the first candidate whose value
is truthy, else the last candidate's lookup; a `None` selection is
skipped, a string selection has its commas stripped, the parse must
succeed and be finite to aggregate, and anything else is skipped.
A present field holding the string "0" is truthy, hence selected and
aggregated; a present numeric 0 is falsy and passed over (it still
aggregates when it sits in the last candidate position). -/
theorem C1_amended :
    (∀ (p : JVal) (ks : List String), selectChain p ks = selectSpec p ks) ∧
    (∀ (cands : List String) (st : AggState) (p : JVal), p.isObj = true →
      aggStep cands st p = some (aggUpdate st (selectSpec p cands))) ∧
    (∀ st : AggState, aggUpdate st .null = { st with bad_rows := st.bad_rows + 1 }) ∧
    (∀ (st : AggState) (v : JVal) (q : PyNum), v ≠ .null →
      pyFloatOfVal (stripIfStr v) = .fin q →
      aggUpdate st v = { st with total := st.total.add q, count := st.count + 1 }) ∧
    (∀ (st : AggState) (v : JVal), (∀ q, pyFloatOfVal (stripIfStr v) ≠ .fin q) →
      aggUpdate st v = { st with bad_rows := st.bad_rows + 1 }) ∧
    aggregate_sales 2024 3 [.ok (singlePayloadPage [("sales", .str "0")])]
      = (.ok ⟨2024, 3, 1, 0, 0⟩, 1) ∧
    aggregate_sales 2024 3 [.ok (singlePayloadPage [("sales_amount", .int 0)])]
      = (.ok ⟨2024, 3, 1, 0, 0⟩, 1) ∧
    aggregate_volume 2024 3 [.ok (singlePayloadPage [("sales_vol", .str "0")])]
      = (.ok ⟨2024, 3, 1, 0, 0⟩, 1) := by
  refine ⟨selectChain_eq_selectSpec, ?_, fun _ => rfl, ?_, ?_, rfl, rfl, rfl⟩
  · intro cands st p hp
    unfold aggStep
    rw [selectChain_eq_selectSpec, hp]
    rfl
  · intro st v q hv hq
    rw [aggUpdate_nonnull st v hv, hq]
  · intro st v hq
    cases v
    case null => rfl
    all_goals
      rw [aggUpdate_nonnull st _ (fun h => JVal.noConfusion h)]
      exact parseMatch_notfin st _ hq

/-- Closed instance of C1 amended: on a payload whose `sales` is the
number 0 and with no `sales_amount`, the selection is `None` and the
record is skipped. -/
theorem C1_amended_witness :
    aggStep ["sales", "sales_amount"] ⟨0, 0, 0⟩ (.obj [("sales", .int 0)])
      = some (aggUpdate ⟨0, 0, 0⟩ (selectSpec (.obj [("sales", .int 0)]) ["sales", "sales_amount"])) :=
  C1_amended.2.1 ["sales", "sales_amount"] ⟨0, 0, 0⟩ (.obj [("sales", .int 0)]) rfl

/-- A scroll response with one point and a present next-cursor whose
value is the integer 0 (a legal Qdrant point id). -/
def scrollRespCursorZero : JVal :=
  .obj [("result", .obj [("points", .arr [.obj [("payload", .obj [("k", .str "a")])]]),
                         ("next_page_offset", .int 0)])]

/-- A scroll response with one point and no cursor. -/
def scrollRespSecond : JVal := singlePayloadPage [("k", .str "b")]

/-- C3 counterexample: the first response carries a non-empty page and a
present next-cursor value (0), yet the engine terminates after that
single request instead of requesting the next page with the returned
cursor. -/
theorem C3_counterexample :
    (scrollRespCursorZero.get "result").hasKey "next_page_offset" = true ∧
    pointsField scrollRespCursorZero = .arr [.obj [("payload", .obj [("k", .str "a")])]] ∧
    scroll_query_with_filter [.ok scrollRespCursorZero, .ok scrollRespSecond] none
      = ⟨[.obj [("k", .str "a")]], [none], .finished⟩ := by
  exact ⟨rfl, rfl, rfl⟩

/-- C3 amended: on each page the engine stops immediately (yielding
nothing) when the page is empty or falsy; yields one payload per point
in the returned order; then stops when the next-cursor chain is falsy —
a present but falsy cursor value (0, "", null) is treated like an
absent one — and otherwise issues the next request with the returned
cursor as its offset. -/
theorem C3_amended :
    (∀ (resp : JVal) (rest : List PageResp) (off : Option JVal),
      resp.isObj = true → (pointsField resp).truthy = false →
      scroll_query_with_filter (.ok resp :: rest) off = ⟨[], [off], .finished⟩) ∧
    (∀ (resp : JVal) (rest : List PageResp) (off : Option JVal) (pts : List JVal),
      resp.isObj = true → (pointsField resp).truthy = true →
      iterVals (pointsField resp) = some pts →
      (nextCursor resp).truthy = false →
      scroll_query_with_filter (.ok resp :: rest) off
        = ⟨pts.map payloadOf, [off], .finished⟩) ∧
    (∀ (resp : JVal) (rest : List PageResp) (off : Option JVal) (pts : List JVal),
      resp.isObj = true → (pointsField resp).truthy = true →
      iterVals (pointsField resp) = some pts →
      (nextCursor resp).truthy = true →
      scroll_query_with_filter (.ok resp :: rest) off
        = ⟨pts.map payloadOf
             ++ (scroll_query_with_filter rest (some (nextCursor resp))).pays,
           off :: (scroll_query_with_filter rest (some (nextCursor resp))).reqs,
           (scroll_query_with_filter rest (some (nextCursor resp))).out⟩) := by
  refine ⟨?_, ?_, ?_⟩
  · intro resp rest off hobj hpts
    unfold scroll_query_with_filter
    simp [hobj, hpts]
  · intro resp rest off pts hobj htr hiter hcur
    unfold scroll_query_with_filter
    simp [hobj, htr, hiter, hcur]
  · intro resp rest off pts hobj htr hiter hcur
    conv_lhs => unfold scroll_query_with_filter
    simp [hobj, htr, hiter, hcur]

/-- Closed instance of C3 amended: a response whose `result` is an empty
list terminates the scroll at once with no yields. -/
theorem C3_amended_witness :
    scroll_query_with_filter [.ok (.obj [("result", .arr [])])] none
      = ⟨[], [none], .finished⟩ :=
  C3_amended.1 (.obj [("result", .arr [])]) [] none rfl rfl

/-- C4: the legacy endpoint is attempted first and decides the call on
success; any failure of it (exception/timeout, or a non-200 status)
leads to an attempt on the modern endpoint before failing; the
`SearchUnavailable` error is raised exactly when both attempts fail;
and every successful response is normalized hit-by-hit, in the order
the store returned the points. -/
theorem C4_search_shim :
    (∀ (a1 a2 : Attempt) (hits : List SearchHit), attempt1Hits a1 = some hits →
      http_search_collection a1 a2 = (.ok hits, 1)) ∧
    (attempt1Hits .exc = none ∧
      ∀ (code : Nat) (body : Option JVal), code ≠ 200 →
        attempt1Hits (.resp code body) = none) ∧
    (∀ a1 a2, attempt1Hits a1 = none → (http_search_collection a1 a2).2 = 2) ∧
    (∀ a1 a2, (http_search_collection a1 a2).1 = .error () ↔
      attempt1Hits a1 = none ∧ attempt2Hits a2 = none) ∧
    (∀ (a1 a2 : Attempt) (hits : List SearchHit), attempt1Hits a1 = none →
      attempt2Hits a2 = some hits → http_search_collection a1 a2 = (.ok hits, 2)) ∧
    (∀ (body : JVal) (pts : List JVal), body.isObj = true →
      iterVals (searchPointsVal body) = some pts →
      parseHits body = some (pts.map mkHit)) := by
  refine ⟨?_, ⟨rfl, ?_⟩, ?_, ?_, ?_, ?_⟩
  · intro a1 a2 hits h
    unfold http_search_collection
    rw [h]
  · intro code body h
    simp [attempt1Hits, h]
  · intro a1 a2 h
    unfold http_search_collection
    rw [h]
    cases attempt2Hits a2 <;> rfl
  · intro a1 a2
    unfold http_search_collection
    cases h1 : attempt1Hits a1 <;> cases h2 : attempt2Hits a2 <;> simp [h1, h2]
  · intro a1 a2 hits h1 h2
    unfold http_search_collection
    rw [h1, h2]
  · intro body pts hobj hiter
    unfold parseHits
    simp [hobj, hiter]

/-- Closed instance of C4: a 200 response with an empty body yields an
empty hit list from the first attempt alone. -/
theorem C4_search_shim_witness :
    http_search_collection (.resp 200 (some (.obj []))) .exc = (.ok [], 1) :=
  C4_search_shim.1 (.resp 200 (some (.obj []))) .exc [] rfl

/-- A pattern-1 match always carries a year of at least 2000 (the year
group starts with the literal "20"). -/
lemma m1at_year_ge (l : List Char) (y m : Nat) (h : m1at l = some (y, m)) :
    2000 ≤ y := by
  unfold m1at at h
  split at h <;>
    first
    | (split_ifs at h <;> simp at h <;> omega)
    | exact Option.noConfusion h

/-- The leftmost-search wrapper preserves the year bound. -/
lemma m1search_year_ge (l : List Char) : ∀ y m, m1search l = some (y, m) → 2000 ≤ y := by
  induction l with
  | nil => intro y m h; exact Option.noConfusion h
  | cons c rest ih =>
    intro y m h
    simp only [m1search] at h
    cases hm : m1at (c :: rest) with
    | some r =>
      rw [hm] at h
      simp at h
      subst h
      exact m1at_year_ge (c :: rest) y m hm
    | none =>
      rw [hm] at h
      exact ih y m h

/-- The year group of patterns 2 and 3 is at least 2000. -/
lemma yearAfterSeps_ge (l : List Char) (y : Nat) (h : yearAfterSeps l = some y) :
    2000 ≤ y := by
  unfold yearAfterSeps at h
  split at h <;>
    first
    | exact Option.noConfusion h
    | (split_ifs at h <;>
        first
        | exact Option.noConfusion h
        | (split at h <;>
            first
            | (split_ifs at h <;> simp at h <;> omega)
            | exact Option.noConfusion h))

/-- A pattern-2 alternation match takes its month from the table and
its year from the year group. -/
lemma m2alt_bounds (alts : List (String × Nat)) (l : List Char) :
    ∀ y m, (∀ e ∈ alts, 1 ≤ e.2 ∧ e.2 ≤ 12) → m2alt l alts = some (y, m) →
      2000 ≤ y ∧ 1 ≤ m ∧ m ≤ 12 := by
  induction alts with
  | nil => intro y m _ h; exact Option.noConfusion h
  | cons e rest ih =>
    intro y m hall h
    simp only [m2alt] at h
    split_ifs at h with h1 h2
    · cases hys : yearAfterSeps (l.drop e.1.length) with
      | some y' =>
        rw [hys] at h
        simp at h
        obtain ⟨rfl, rfl⟩ := h
        exact ⟨yearAfterSeps_ge _ _ hys, (hall e (List.mem_cons_self e rest)).1,
               (hall e (List.mem_cons_self e rest)).2⟩
      | none =>
        rw [hys] at h
        exact ih y m (fun x hx => hall x (List.mem_cons_of_mem e hx)) h
    · exact ih y m (fun x hx => hall x (List.mem_cons_of_mem e hx)) h
    · exact ih y m (fun x hx => hall x (List.mem_cons_of_mem e hx)) h

/-- Pattern-2 search preserves the bounds. -/
lemma m2search_bounds (l : List Char) : ∀ prev y m,
    (∀ e ∈ monthTable, 1 ≤ e.2 ∧ e.2 ≤ 12) → m2search prev l = some (y, m) →
    2000 ≤ y ∧ 1 ≤ m ∧ m ≤ 12 := by
  induction l with
  | nil => intro prev y m _ h; exact Option.noConfusion h
  | cons c rest ih =>
    intro prev y m hall h
    simp only [m2search] at h
    cases hpb : prevBoundary prev with
    | true =>
      rw [hpb] at h
      simp only [if_true] at h
      cases hm : m2alt (c :: rest) monthTable with
      | some r =>
        rw [hm] at h
        simp at h
        subst h
        exact m2alt_bounds monthTable (c :: rest) y m hall hm
      | none =>
        rw [hm] at h
        exact ih (some c) y m hall h
    | false =>
      rw [hpb] at h
      simp only [Bool.false_eq_true, if_false] at h
      exact ih (some c) y m hall h

/-- A pattern-3 alternation match returns a month from the table. -/
lemma m3alt_bounds (alts : List (String × Nat)) (l : List Char) :
    ∀ m, (∀ e ∈ alts, 1 ≤ e.2 ∧ e.2 ≤ 12) → m3alt l alts = some m →
      1 ≤ m ∧ m ≤ 12 := by
  induction alts with
  | nil => intro m _ h; exact Option.noConfusion h
  | cons e rest ih =>
    intro m hall h
    simp only [m3alt] at h
    split_ifs at h with h1
    · simp at h
      subst h
      exact hall e (List.mem_cons_self e rest)
    · exact ih m (fun x hx => hall x (List.mem_cons_of_mem e hx)) h

/-- A pattern-3 anchored match is bounded. -/
lemma m3at_bounds (l : List Char) (y m : Nat)
    (hall : ∀ e ∈ monthTable, 1 ≤ e.2 ∧ e.2 ≤ 12) (h : m3at l = some (y, m)) :
    2000 ≤ y ∧ 1 ≤ m ∧ m ≤ 12 := by
  unfold m3at at h
  split at h
  case _ a b c rest =>
    split_ifs at h with h1
    · cases hm : m3alt (rest.dropWhile sepChar) monthTable with
      | some mv =>
        rw [hm] at h
        simp at h
        obtain ⟨rfl, rfl⟩ := h
        exact ⟨by omega, m3alt_bounds monthTable _ mv hall hm⟩
      | none => rw [hm] at h; exact Option.noConfusion h
  case _ => exact Option.noConfusion h

/-- Pattern-3 search preserves the bounds. -/
lemma m3search_bounds (l : List Char) : ∀ y m,
    (∀ e ∈ monthTable, 1 ≤ e.2 ∧ e.2 ≤ 12) → m3search l = some (y, m) →
    2000 ≤ y ∧ 1 ≤ m ∧ m ≤ 12 := by
  induction l with
  | nil => intro y m _ h; exact Option.noConfusion h
  | cons c rest ih =>
    intro y m hall h
    simp only [m3search] at h
    cases hm : m3at (c :: rest) with
    | some r =>
      rw [hm] at h
      simp at h
      subst h
      exact m3at_bounds (c :: rest) y m hall hm
    | none =>
      rw [hm] at h
      exact ih y m hall h

/-- Every entry of the month table is a real month number. -/
lemma monthTable_bounds : ∀ e ∈ monthTable, 1 ≤ e.2 ∧ e.2 ≤ 12 := by decide

/-- Any (year, month) the date extraction returns satisfies
2000 ≤ year and 1 ≤ month ≤ 12. -/
lemma parseYMChars_bounds (t : List Char) (y m : Nat)
    (h : parseYMChars t = some (y, m)) : 2000 ≤ y ∧ 1 ≤ m ∧ m ≤ 12 := by
  unfold parseYMChars at h
  have hm23 : m23 t = some (y, m) → 2000 ≤ y ∧ 1 ≤ m ∧ m ≤ 12 := by
    intro h23
    unfold m23 at h23
    cases hm2 : m2search none t with
    | some r =>
      rw [hm2] at h23
      simp at h23
      subst h23
      exact m2search_bounds t none y m monthTable_bounds hm2
    | none =>
      rw [hm2] at h23
      exact m3search_bounds t y m monthTable_bounds h23
  cases hm1 : m1search t with
  | some r =>
    obtain ⟨y', m'⟩ := r
    rw [hm1] at h
    have h' : (if 1 ≤ m' ∧ m' ≤ 12 then some (y', m') else m23 t) = some (y, m) := h
    split_ifs at h' with hv
    · obtain ⟨rfl, rfl⟩ : y' = y ∧ m' = m := by simpa using h'
      exact ⟨m1search_year_ge t _ _ hm1, hv⟩
    · exact hm23 h'
  | none =>
    rw [hm1] at h
    exact hm23 h

/-- C2: the router classifies a question as revenue aggregation exactly
when a revenue keyword is present and a valid (year, month) was
extracted; as volume aggregation when a volume keyword (and no revenue
keyword) is present with a valid date; and as retrieval in every other
case, including a date with no aggregation keyword.  The two spec
examples classify as stated. -/
theorem C2_chat_router :
    (∀ (q : String) (y m : Nat), parse_year_month_from_text q = some (y, m) →
      is_revenue_aggregation q = true → chatIntent q = .revenueAgg y m) ∧
    (∀ (q : String) (y m : Nat), parse_year_month_from_text q = some (y, m) →
      is_revenue_aggregation q = false → is_volume_aggregation q = true →
      chatIntent q = .volumeAgg y m) ∧
    (∀ q : String, parse_year_month_from_text q = none → chatIntent q = .retrieval) ∧
    (∀ q : String, is_revenue_aggregation q = false → is_volume_aggregation q = false →
      chatIntent q = .retrieval) ∧
    chatIntent "total revenue in March 2024" = .revenueAgg 2024 3 ∧
    chatIntent "units sold last August 2023" = .volumeAgg 2023 8 ∧
    chatIntent "what happened in March 2024" = .retrieval ∧
    chatIntent "show me top products" = .retrieval := by
  refine ⟨?_, ?_, ?_, ?_, by rfl, by rfl, by rfl, by rfl⟩
  · intro q y m hp hr
    have hb := parseYMChars_bounds (q.toList.map Char.toLower) y m hp
    have hy : (y != 0) = true := bne_iff_ne.mpr (by omega)
    have hm : (m != 0) = true := bne_iff_ne.mpr (by omega)
    simp [chatIntent, hp, hr, hy, hm]
  · intro q y m hp hr hv
    have hb := parseYMChars_bounds (q.toList.map Char.toLower) y m hp
    have hy : (y != 0) = true := bne_iff_ne.mpr (by omega)
    have hm : (m != 0) = true := bne_iff_ne.mpr (by omega)
    simp [chatIntent, hp, hr, hv, hy, hm]
  · intro q hp
    simp [chatIntent, hp]
  · intro q hr hv
    unfold chatIntent
    cases hp : parse_year_month_from_text q with
    | some r => obtain ⟨y, m⟩ := r; simp [hr, hv]
    | none => rfl

/-- Closed instance of C2's revenue clause via the theorem itself. -/
theorem C2_chat_router_witness :
    chatIntent "revenue for 2024-03" = .revenueAgg 2024 3 :=
  C2_chat_router.1 "revenue for 2024-03" 2024 3 rfl rfl

/-- `re.search` semantics of the pattern-1 wrapper: the returned match
is the anchored match at the least starting position. -/
lemma m1search_leftmost (t : List Char) : ∀ y m, m1search t = some (y, m) →
    ∃ i, m1at (t.drop i) = some (y, m) ∧ ∀ j < i, m1at (t.drop j) = none := by
  induction t with
  | nil => intro y m h; exact Option.noConfusion h
  | cons c rest ih =>
    intro y m h
    simp only [m1search] at h
    cases hm : m1at (c :: rest) with
    | some r =>
      rw [hm] at h
      simp at h
      subst h
      exact ⟨0, hm, fun j hj => absurd hj (by omega)⟩
    | none =>
      rw [hm] at h
      obtain ⟨i, hi, hlt⟩ := ih y m h
      refine ⟨i + 1, by simpa using hi, ?_⟩
      intro j hj
      cases j with
      | zero => simpa using hm
      | succ j' => simpa using hlt j' (by omega)

/-- C9 counterexample: the text "2024-13 2024-05" contains pattern 1
with a valid month at position 8 ("2024-05"), yet extraction returns
nothing: pattern 1's leftmost occurrence ("2024-13") has month 13, and
the code abandons pattern 1 entirely instead of trying later
occurrences. -/
theorem C9_counterexample :
    m1at (("2024-13 2024-05".toList.map Char.toLower).drop 8) = some (2024, 5) ∧
    parse_year_month_from_text "2024-13 2024-05" = none := by
  exact ⟨rfl, rfl⟩

/-- C9 amended: each of the three patterns is searched for its leftmost
occurrence only, in order; pattern 1's leftmost match wins only if its
month lies in 1..12, and otherwise pattern 1 is abandoned (later
occurrences are not retried) in favor of pattern 2 then pattern 3;
(None, None) is returned when none of the three searches matches; every
returned pair has year at least 2000 and month in 1..12. -/
theorem C9_amended :
    (∀ (t : List Char) (y m : Nat), m1search t = some (y, m) →
      ∃ i, m1at (t.drop i) = some (y, m) ∧ ∀ j < i, m1at (t.drop j) = none) ∧
    (∀ (t : List Char) (y m : Nat), m1search t = some (y, m) → 1 ≤ m → m ≤ 12 →
      parseYMChars t = some (y, m)) ∧
    (∀ (t : List Char) (y m : Nat), m1search t = some (y, m) → ¬(1 ≤ m ∧ m ≤ 12) →
      parseYMChars t = m23 t) ∧
    (∀ t : List Char, m1search t = none → parseYMChars t = m23 t) ∧
    (∀ t : List Char, m1search t = none → m2search none t = none → m3search t = none →
      parseYMChars t = none) ∧
    (∀ (s : String) (y m : Nat), parse_year_month_from_text s = some (y, m) →
      2000 ≤ y ∧ 1 ≤ m ∧ m ≤ 12) := by
  refine ⟨m1search_leftmost, ?_, ?_, ?_, ?_, ?_⟩
  · intro t y m h h1 h2
    unfold parseYMChars
    rw [h]
    show (if 1 ≤ m ∧ m ≤ 12 then some (y, m) else m23 t) = some (y, m)
    rw [if_pos ⟨h1, h2⟩]
  · intro t y m h hv
    unfold parseYMChars
    rw [h]
    show (if 1 ≤ m ∧ m ≤ 12 then some (y, m) else m23 t) = m23 t
    rw [if_neg hv]
  · intro t h
    unfold parseYMChars
    rw [h]
  · intro t h1 h2 h3
    unfold parseYMChars m23
    rw [h1, h2, h3]
  · intro s y m h
    exact parseYMChars_bounds _ y m h

/-- Closed instance of C9 amended: a single pattern-1 occurrence with a
valid month is returned. -/
theorem C9_amended_witness :
    parseYMChars "sales in 2024-05".toList = some (2024, 5) :=
  C9_amended.2.1 "sales in 2024-05".toList 2024 5 rfl (by omega) (by omega)

/-- The value shape each schema type tag guarantees after
normalization: `int` fields hold ints, `number` fields hold floats,
and `date`, `string` and unknown tags hold strings. -/
def typedShape (τ : String) (w : JVal) : Bool :=
  if τ = "int" then (match w with | .int _ => true | _ => false)
  else if τ = "number" then (match w with | .float _ => true | _ => false)
  else (match w with | .str _ => true | _ => false)

/-- Every coercion result has its declared shape. -/
lemma normalizeField_shape (τ : String) (v : JVal) :
    typedShape τ (normalizeField τ v) = true := by
  unfold normalizeField typedShape
  by_cases h1 : τ = "date" <;> by_cases h2 : τ = "int" <;> by_cases h3 : τ = "number" <;>
    simp [h1, h2, h3] at * <;> simp_all

/-- A value with a declared shape is never null. -/
lemma typedShape_ne_null (τ : String) (w : JVal) (h : typedShape τ w = true) :
    w ≠ .null := by
  intro hn
  subst hn
  unfold typedShape at h
  split_ifs at h <;> exact Bool.noConfusion h

/-- Association lists with distinct keys bind each key at most once. -/
lemma keyVal_unique {α : Type} (l : List (String × α)) : ∀ (k : String) (a b : α),
    (l.map Prod.fst).Nodup → (k, a) ∈ l → (k, b) ∈ l → a = b := by
  induction l with
  | nil => intro k a b _ ha _; exact absurd ha (List.not_mem_nil _)
  | cons e rest ih =>
    intro k a b hnd ha hb
    rw [List.map_cons, List.nodup_cons] at hnd
    rw [List.mem_cons] at ha hb
    rcases ha with ha | ha <;> rcases hb with hb | hb
    · subst ha
      exact ((Prod.mk.injEq _ _ _ _).mp hb).2.symm
    · subst ha
      exact absurd (List.mem_map_of_mem Prod.fst hb) hnd.1
    · subst hb
      exact absurd (List.mem_map_of_mem Prod.fst ha) hnd.1
    · exact ih k a b hnd.2 ha hb

/-- C8: the normalizer (a total function in this model — no exception
escapes it) emits only schema-known fields, each with its declared
shape and never null; a field whose raw value is null never reaches the
output; and each coercion failure produces the per-type fallback
(0, 0.0, the 1970-01-01 sentinel, or the stringified original). -/
theorem C8_normalizer_invariants :
    (∀ (doc : List (String × JVal)) (cls : String) (k : String) (w : JVal),
      (k, w) ∈ normalize_metadata doc cls →
      ∃ τ, ((TYPE_MAP.lookup cls).getD []).lookup k = some τ ∧
        typedShape τ w = true ∧ w ≠ .null) ∧
    (∀ (doc : List (String × JVal)) (cls : String) (k : String),
      (doc.map Prod.fst).Nodup → (k, JVal.null) ∈ doc →
      ∀ w, (k, w) ∉ normalize_metadata doc cls) ∧
    normalizeField "int" (.str "abc") = .int 0 ∧
    normalizeField "number" (.str "abc") = .float 0 ∧
    normalizeField "date" (.str "abc") = .str "1970-01-01T00:00:00Z" ∧
    normalizeField "date" (.arr []) = .str "1970-01-01T00:00:00Z" ∧
    normalizeField "string" (.bool true) = .str "True" := by
  refine ⟨?_, ?_, rfl, rfl, rfl, rfl, rfl⟩
  · intro doc cls k w hmem
    unfold normalize_metadata at hmem
    rw [List.mem_filterMap] at hmem
    obtain ⟨⟨k', v⟩, hin, hf⟩ := hmem
    split at hf
    · exact Option.noConfusion hf
    · exact Option.noConfusion hf
    · rename_i expected hlk hne
      rw [Option.some.injEq, Prod.mk.injEq] at hf
      obtain ⟨rfl, rfl⟩ := hf
      exact ⟨expected, hlk, normalizeField_shape expected v,
        typedShape_ne_null expected _ (normalizeField_shape expected v)⟩
  · intro doc cls k hnd hknull w hmem
    unfold normalize_metadata at hmem
    rw [List.mem_filterMap] at hmem
    obtain ⟨⟨k', v⟩, hin, hf⟩ := hmem
    split at hf
    · exact Option.noConfusion hf
    · exact Option.noConfusion hf
    · rename_i expected hlk hne
      rw [Option.some.injEq, Prod.mk.injEq] at hf
      obtain ⟨rfl, rfl⟩ := hf
      exact hne (keyVal_unique doc k' v .null hnd hin hknull)

/-- Closed instance of C8: a null `month_year` is dropped while a
non-null `sales` survives with its declared string shape. -/
theorem C8_normalizer_witness :
    (∃ τ, ((TYPE_MAP.lookup "sales_vol_staging").getD []).lookup "sales" = some τ ∧
      typedShape τ (JVal.str "1") = true ∧ JVal.str "1" ≠ .null) ∧
    ("month_year", JVal.str "x") ∉
      normalize_metadata [("month_year", .null), ("sales", .str "1")] "sales_vol_staging" :=
  ⟨C8_normalizer_invariants.1 [("month_year", .null), ("sales", .str "1")]
      "sales_vol_staging" "sales" (.str "1") (List.mem_singleton.mpr rfl),
   C8_normalizer_invariants.2.1 [("month_year", .null), ("sales", .str "1")]
      "sales_vol_staging" "month_year" (by decide) (by simp) (.str "x")⟩

/-- Appending any non-empty suffix to a well-formed `YYYY-MM-DD` date
defeats the strict `strptime` ("unconverted data remains"). -/
lemma parseYMD_trailing (tail : String) (htail : tail ≠ "") :
    parseYMD ("2023-05-01" ++ tail) = none := by
  obtain ⟨c, cs, hcc⟩ : ∃ c cs, tail.toList = c :: cs := by
    cases h : tail.toList with
    | nil => exact absurd (String.ext (h : tail.data = "".data)) htail
    | cons c cs => exact ⟨c, cs, rfl⟩
  unfold parseYMD
  have hlist : ("2023-05-01" ++ tail).toList
      = '2' :: '0' :: '2' :: '3' :: '-' :: '0' :: '5' :: '-' :: '0' :: '1' :: (c :: cs) := by
    show ("2023-05-01" ++ tail).data = _
    rw [String.data_append]
    rw [show "2023-05-01".data = ['2', '0', '2', '3', '-', '0', '5', '-', '0', '1'] from rfl]
    rw [show tail.data = c :: cs from hcc]
    rfl
  rw [hlist]
  simp [parseMonthRest, parseDayEnd]

/-- C10: a date-typed field whose raw value is already a full
RFC3339/ISO timestamp string is not preserved: the strict `YYYY-MM-DD`
parse fails on the trailing time part (indeed on any non-empty
trailer), and the value becomes the 1970-01-01T00:00:00Z sentinel —
while the bare `YYYY-MM-DD` form would have been preserved at
midnight. -/
theorem C10_timestamp_fallback :
    (∀ tail : String, tail ≠ "" →
      normalizeField "date" (.str ("2023-05-01" ++ tail)) = .str "1970-01-01T00:00:00Z") ∧
    normalizeField "date" (.str "2023-05-01T00:00:00Z") = .str "1970-01-01T00:00:00Z" ∧
    parseYMD "2023-05-01" = some (2023, 5, 1) ∧
    normalizeField "date" (.str "2023-05-01") = .str "2023-05-01T00:00:00Z" ∧
    normalize_metadata [("month_year", .str "2023-05-01T00:00:00Z")] "sales_vol_staging"
      = [("month_year", .str "1970-01-01T00:00:00Z")] := by
  refine ⟨?_, rfl, rfl, rfl, rfl⟩
  intro tail htail
  have hp := parseYMD_trailing tail htail
  simp [normalizeField, dateCoerce, pyStr, hp, dateFallback]

/-- Closed instance of C10 at the claim's own example timestamp. -/
theorem C10_timestamp_fallback_witness :
    normalizeField "date" (.str ("2023-05-01" ++ "T00:00:00Z"))
      = .str "1970-01-01T00:00:00Z" :=
  C10_timestamp_fallback.1 "T00:00:00Z" (by decide)
